import Mathlib

/-!
# Verification of the condvar event handshake (`tasks/events/src/main.rs`)

The Rust program under verification is `handle_event : Duration -> Duration`:

* it constructs a fresh `Arc<(Mutex<bool>, Condvar)>` (flag initially `false`),
* records `start = Instant::now()`,
* locks the mutex, spawns a signaler thread, and waits in a
  `while !*guard { guard = cond.wait(guard).unwrap() }` loop;
* the signaler locks the same mutex, sets the flag, sleeps for the given
  duration while holding the lock, calls `notify_one`, and releases the lock
  on scope exit;
* once the waiter observes the flag it computes `elapsed = start.elapsed()`,
  drops the guard and returns `elapsed`.

We embed this as a small-step transition system over an explicit state:
program counters for the two threads, the lock owner, the boolean flag and a
logical clock that advances exactly when `thread::sleep(duration)` runs (the
model abstracts scheduler slack as zero, which is the spec's
"modulo scheduler timing granularity").  Spurious condvar wakeups are an
extra environment step, enabled only when the `spur` parameter of the step
relation is `true`, so theorems can quantify over the model with or without
spurious wakeups.

Statement-level facts (textual order of the statements inside
`handle_event`, the kind of notify used, the `unwrap` calls) are embedded as
static program listings copied from the source order.
-/

namespace Events

/-- Thread identifiers: `W` is the caller of `handle_event` (the waiter),
`S` is the thread spawned inside `handle_event` (the signaler). -/
inductive Tid : Type
  | W
  | S
deriving DecidableEq, Repr

/-- Program counter of the waiter (the body of `handle_event` itself).
`wInit` is before `let start = Instant::now()`; `wStart` before
`mutex.lock().unwrap()`; `wLocked` before `spawn`; `wLoop` at the
`while !*guard` check; `wBlocked` blocked inside `cond.wait`; `wWoken`
woken (notified or spuriously) but not yet holding the lock again;
`wExit` after the loop, before `start.elapsed()`; `wElapsed` before
`drop(guard)`; `wDone` returned. -/
inductive WPc : Type
  | wInit
  | wStart
  | wLocked
  | wLoop
  | wBlocked
  | wWoken
  | wExit
  | wElapsed
  | wDone
deriving DecidableEq, Repr

/-- Program counter of the signaler closure.  `sNone`: not yet spawned;
`sLockWait`: spawned, blocked on `mutex_.lock()`; `sSetFlag`: holding the
lock, before `*guard = true`; `sSleep`: before `thread::sleep(duration)`;
`sNotify`: before `cond_.notify_one()`; `sUnlock`: before the guard is
dropped at scope exit; `sDone`: the closure has finished. -/
inductive SPc : Type
  | sNone
  | sLockWait
  | sSetFlag
  | sSleep
  | sNotify
  | sUnlock
  | sDone
deriving DecidableEq, Repr

/-- Global state of one call to `handle_event` with its spawned thread.
`lock` is the owner of the mutex, `flag` the `Mutex<bool>` contents,
`start` the recorded `Instant` (logical time), `time` the logical clock,
`elapsed` the computed result once `start.elapsed()` has run. -/
structure St : Type where
  wpc : WPc
  spc : SPc
  lock : Option Tid
  flag : Bool
  start : Option Nat
  time : Nat
  elapsed : Option Nat
deriving DecidableEq, Repr

/-- The state at entry of `handle_event`: the `Arc::new((Mutex::new(false),
Condvar::new()))` pair is freshly constructed, flag `false`, lock free,
signaler not spawned, nothing recorded. -/
def stInit : St :=
  { wpc := .wInit, spc := .sNone, lock := none, flag := false,
    start := none, time := 0, elapsed := none }

/-- Small-step semantics of one `handle_event d` call.  `spur` enables the
spurious-wakeup environment step.  Each constructor is one statement of the
Rust source; hypotheses on `lock` reflect which statements execute while
holding the mutex guard. -/
inductive Step (spur : Bool) (d : Nat) : St → St → Prop
  | recordStart (s : St) (h : s.wpc = .wInit) :
      Step spur d s { s with start := some s.time, wpc := .wStart }
  | lockW (s : St) (h : s.wpc = .wStart) (hl : s.lock = none) :
      Step spur d s { s with lock := some .W, wpc := .wLocked }
  | spawnS (s : St) (h : s.wpc = .wLocked) :
      Step spur d s { s with spc := .sLockWait, wpc := .wLoop }
  | loopExit (s : St) (h : s.wpc = .wLoop) (hl : s.lock = some .W)
      (hf : s.flag = true) :
      Step spur d s { s with wpc := .wExit }
  | loopWait (s : St) (h : s.wpc = .wLoop) (hl : s.lock = some .W)
      (hf : s.flag = false) :
      Step spur d s { s with lock := none, wpc := .wBlocked }
  | spurious (s : St) (hs : spur = true) (h : s.wpc = .wBlocked) :
      Step spur d s { s with wpc := .wWoken }
  | reacquire (s : St) (h : s.wpc = .wWoken) (hl : s.lock = none) :
      Step spur d s { s with lock := some .W, wpc := .wLoop }
  | computeElapsed (s : St) (h : s.wpc = .wExit) (hl : s.lock = some .W) :
      Step spur d s
        { s with elapsed := some (s.time - s.start.getD 0), wpc := .wElapsed }
  | dropGuard (s : St) (h : s.wpc = .wElapsed) (hl : s.lock = some .W) :
      Step spur d s { s with lock := none, wpc := .wDone }
  | lockS (s : St) (h : s.spc = .sLockWait) (hl : s.lock = none) :
      Step spur d s { s with lock := some .S, spc := .sSetFlag }
  | setFlag (s : St) (h : s.spc = .sSetFlag) (hl : s.lock = some .S) :
      Step spur d s { s with flag := true, spc := .sSleep }
  | sleep (s : St) (h : s.spc = .sSleep) (hl : s.lock = some .S) :
      Step spur d s { s with time := s.time + d, spc := .sNotify }
  | notifyOne (s : St) (h : s.spc = .sNotify) (hl : s.lock = some .S) :
      Step spur d s
        { s with wpc := if s.wpc = .wBlocked then .wWoken else s.wpc,
                 spc := .sUnlock }
  | unlockS (s : St) (h : s.spc = .sUnlock) (hl : s.lock = some .S) :
      Step spur d s { s with lock := none, spc := .sDone }

/-- States reachable from the entry state of `handle_event d`. -/
def Reachable (spur : Bool) (d : Nat) (s : St) : Prop :=
  Relation.ReflTransGen (Step spur d) stInit s

/-- Waiter program counters at which the waiter holds the mutex guard. -/
def wHolds : WPc → Bool
  | .wLocked => true
  | .wLoop => true
  | .wExit => true
  | .wElapsed => true
  | _ => false

/-- Signaler program counters at which the signaler holds the mutex guard. -/
def sHolds : SPc → Bool
  | .sSetFlag => true
  | .sSleep => true
  | .sNotify => true
  | .sUnlock => true
  | _ => false

/-- Waiter program counters before the `spawn` statement has run. -/
def preSpawn : WPc → Bool
  | .wInit => true
  | .wStart => true
  | .wLocked => true
  | _ => false

/-- Value of the shared flag as a function of the signaler's progress:
`*guard = true` has run exactly when the signaler is past `sSetFlag`. -/
def flagOf : SPc → Bool
  | .sSleep => true
  | .sNotify => true
  | .sUnlock => true
  | .sDone => true
  | _ => false

/-- Signaler program counters after `thread::sleep(duration)` has run. -/
def slept : SPc → Bool
  | .sNotify => true
  | .sUnlock => true
  | .sDone => true
  | _ => false

/-- Waiter program counters strictly past the wait loop. -/
def pastLoop : WPc → Bool
  | .wExit => true
  | .wElapsed => true
  | .wDone => true
  | _ => false

/-- Waiter program counters after `start.elapsed()` has been computed. -/
def elapsedSet : WPc → Bool
  | .wElapsed => true
  | .wDone => true
  | _ => false

/-- Signaler program counters after `cond_.notify_one()` has run. -/
def postNotify : SPc → Bool
  | .sUnlock => true
  | .sDone => true
  | _ => false

/-- The inductive invariant of the handshake.  It pins down the lock owner,
the flag, the clock and the recorded instants as functions of the two
program counters, and records the ordering facts: past the loop the
signaler is done, after the notify the waiter is never blocked, and (absent
spurious wakeups) a woken waiter implies the notify has run. -/
def Inv (spur : Bool) (d : Nat) (s : St) : Prop :=
  ((s.lock = some .W) ↔ wHolds s.wpc = true) ∧
  ((s.lock = some .S) ↔ sHolds s.spc = true) ∧
  ((s.spc = .sNone) ↔ preSpawn s.wpc = true) ∧
  (s.flag = flagOf s.spc) ∧
  (s.start = if s.wpc = .wInit then none else some 0) ∧
  (s.time = if slept s.spc = true then d else 0) ∧
  (s.elapsed = if elapsedSet s.wpc = true then some d else none) ∧
  (pastLoop s.wpc = true → s.spc = .sDone) ∧
  (postNotify s.spc = true → s.wpc ≠ .wBlocked) ∧
  (spur = false → s.wpc = .wWoken → postNotify s.spc = true)

theorem inv_init (spur : Bool) (d : Nat) : Inv spur d stInit := by
  simp [Inv, stInit, wHolds, sHolds, preSpawn, flagOf, slept, pastLoop,
    elapsedSet, postNotify]

theorem inv_step {spur : Bool} {d : Nat} {s t : St}
    (hInv : Inv spur d s) (hs : Step spur d s t) : Inv spur d t := by
  obtain ⟨c1, c2, c3, c4, c5, c6, c7, c8, c9, c10⟩ := hInv
  cases hs with
  | recordStart h =>
      cases hspc : s.spc <;>
        simp_all [Inv, wHolds, sHolds, preSpawn, flagOf, slept, pastLoop,
          elapsedSet, postNotify]
  | lockW h hl =>
      cases hspc : s.spc <;>
        simp_all [Inv, wHolds, sHolds, preSpawn, flagOf, slept, pastLoop,
          elapsedSet, postNotify]
  | spawnS h =>
      cases hspc : s.spc <;>
        simp_all [Inv, wHolds, sHolds, preSpawn, flagOf, slept, pastLoop,
          elapsedSet, postNotify]
  | loopExit h hl hf =>
      cases hspc : s.spc <;>
        simp_all [Inv, wHolds, sHolds, preSpawn, flagOf, slept, pastLoop,
          elapsedSet, postNotify]
  | loopWait h hl hf =>
      cases hspc : s.spc <;>
        simp_all [Inv, wHolds, sHolds, preSpawn, flagOf, slept, pastLoop,
          elapsedSet, postNotify]
  | spurious hsp h =>
      cases hspc : s.spc <;>
        simp_all [Inv, wHolds, sHolds, preSpawn, flagOf, slept, pastLoop,
          elapsedSet, postNotify]
  | reacquire h hl =>
      cases hspc : s.spc <;>
        simp_all [Inv, wHolds, sHolds, preSpawn, flagOf, slept, pastLoop,
          elapsedSet, postNotify]
  | computeElapsed h hl =>
      cases hspc : s.spc <;>
        simp_all [Inv, wHolds, sHolds, preSpawn, flagOf, slept, pastLoop,
          elapsedSet, postNotify]
  | dropGuard h hl =>
      cases hspc : s.spc <;>
        simp_all [Inv, wHolds, sHolds, preSpawn, flagOf, slept, pastLoop,
          elapsedSet, postNotify]
  | lockS h hl =>
      cases hwpc : s.wpc <;>
        simp_all [Inv, wHolds, sHolds, preSpawn, flagOf, slept, pastLoop,
          elapsedSet, postNotify]
  | setFlag h hl =>
      cases hwpc : s.wpc <;>
        simp_all [Inv, wHolds, sHolds, preSpawn, flagOf, slept, pastLoop,
          elapsedSet, postNotify]
  | sleep h hl =>
      cases hwpc : s.wpc <;>
        simp_all [Inv, wHolds, sHolds, preSpawn, flagOf, slept, pastLoop,
          elapsedSet, postNotify]
  | notifyOne h hl =>
      cases hwpc : s.wpc <;>
        simp_all [Inv, wHolds, sHolds, preSpawn, flagOf, slept, pastLoop,
          elapsedSet, postNotify]
  | unlockS h hl =>
      cases hwpc : s.wpc <;>
        simp_all [Inv, wHolds, sHolds, preSpawn, flagOf, slept, pastLoop,
          elapsedSet, postNotify]

theorem reachable_inv {spur : Bool} {d : Nat} {s : St}
    (h : Reachable spur d s) : Inv spur d s := by
  induction h with
  | refl => exact inv_init spur d
  | tail hr hstep ih => exact inv_step ih hstep

/-- Rank of the waiter's program counter, used as part of the termination
measure.  `wLoop` ranks below `wWoken` once the flag is set, so the final
recheck of the loop still decreases the measure. -/
def wRank (pc : WPc) (flag : Bool) : Nat :=
  match pc with
  | .wInit => 9
  | .wStart => 8
  | .wLocked => 7
  | .wLoop => if flag then 3 else 6
  | .wBlocked => 5
  | .wWoken => 4
  | .wExit => 2
  | .wElapsed => 1
  | .wDone => 0

/-- Rank of the signaler's program counter: strictly decreases on every
signaler step. -/
def sRank : SPc → Nat
  | .sNone => 6
  | .sLockWait => 5
  | .sSetFlag => 4
  | .sSleep => 3
  | .sNotify => 2
  | .sUnlock => 1
  | .sDone => 0

/-- Termination measure of the handshake. -/
def rankOf (s : St) : Nat := wRank s.wpc s.flag + sRank s.spc

/-- In the model without spurious wakeups, every step strictly decreases the
termination measure (the invariant supplies that a woken waiter finds the
flag already set). -/
theorem rank_decreases {d : Nat} {s t : St}
    (hInv : Inv false d s) (hs : Step false d s t) : rankOf t < rankOf s := by
  obtain ⟨c1, c2, c3, c4, c5, c6, c7, c8, c9, c10⟩ := hInv
  cases hs with
  | recordStart h => simp_all [rankOf, wRank, sRank]
  | lockW h hl => simp_all [rankOf, wRank, sRank]
  | spawnS h =>
      have hspc : s.spc = .sNone := c3.mpr (by simp [h, preSpawn])
      cases hf : s.flag <;> simp_all [rankOf, wRank, sRank]
  | loopExit h hl hf => simp_all [rankOf, wRank, sRank]
  | loopWait h hl hf => simp_all [rankOf, wRank, sRank]
  | spurious hsp h => simp_all
  | reacquire h hl =>
      have hpn : postNotify s.spc = true := c10 rfl h
      have hflag : s.flag = true := by
        cases hspc : s.spc <;> simp_all [postNotify, flagOf]
      simp_all [rankOf, wRank, sRank]
  | computeElapsed h hl => simp_all [rankOf, wRank, sRank]
  | dropGuard h hl => simp_all [rankOf, wRank, sRank]
  | lockS h hl =>
      cases hwpc : s.wpc <;> cases hf : s.flag <;> simp_all [rankOf, wRank, sRank]
  | setFlag h hl =>
      cases hwpc : s.wpc <;> cases hf : s.flag <;> simp_all [rankOf, wRank, sRank]
  | sleep h hl =>
      cases hwpc : s.wpc <;> cases hf : s.flag <;> simp_all [rankOf, wRank, sRank]
  | notifyOne h hl =>
      cases hwpc : s.wpc <;> cases hf : s.flag <;> simp_all [rankOf, wRank, sRank]
  | unlockS h hl =>
      cases hwpc : s.wpc <;> cases hf : s.flag <;> simp_all [rankOf, wRank, sRank]

/-- Every state of an execution (a function from step indices to states that
starts at `stInit` and follows `Step`) is reachable. -/
theorem exec_reachable {spur : Bool} {d : Nat} {f : Nat → St}
    (h0 : f 0 = stInit) (hstep : ∀ n, Step spur d (f n) (f (n + 1))) :
    ∀ n, Reachable spur d (f n) := by
  intro n
  induction n with
  | zero => exact h0 ▸ Relation.ReflTransGen.refl
  | succ n ih => exact Relation.ReflTransGen.tail ih (hstep n)

/-- Without spurious wakeups there is no infinite execution: the measure
`rankOf` strictly decreases along every step. -/
theorem no_infinite_run {d : Nat} {f : Nat → St}
    (h0 : f 0 = stInit) (hstep : ∀ n, Step false d (f n) (f (n + 1))) :
    False := by
  have hreach : ∀ n, Reachable false d (f n) := exec_reachable h0 hstep
  have hdec : ∀ n, rankOf (f (n + 1)) < rankOf (f n) := fun n =>
    rank_decreases (reachable_inv (hreach n)) (hstep n)
  have hbound : ∀ n, rankOf (f n) + n ≤ rankOf (f 0) := by
    intro n
    induction n with
    | zero => simp
    | succ n ih =>
        have := hdec n
        omega
  have := hbound (rankOf (f 0) + 1)
  omega

/-- Deadlock freedom in the model without spurious wakeups: every reachable
state in which `handle_event` has not yet returned has an enabled step. -/
theorem progress {d : Nat} {s : St}
    (hr : Reachable false d s) (hnd : s.wpc ≠ .wDone) :
    ∃ t, Step false d s t := by
  have hInv := reachable_inv hr
  obtain ⟨c1, c2, c3, c4, c5, c6, c7, c8, c9, c10⟩ := hInv
  cases hw : s.wpc with
  | wInit => exact ⟨_, Step.recordStart s hw⟩
  | wStart =>
      have hl : s.lock = none := by
        cases hlk : s.lock with
        | none => rfl
        | some tid =>
            cases tid with
            | W => simp_all [wHolds]
            | S =>
                have : sHolds s.spc = true := c2.mp hlk
                have : s.spc = .sNone := c3.mpr (by simp [hw, preSpawn])
                simp_all [sHolds]
      exact ⟨_, Step.lockW s hw hl⟩
  | wLocked => exact ⟨_, Step.spawnS s hw⟩
  | wLoop =>
      have hl : s.lock = some .W := c1.mpr (by simp [hw, wHolds])
      cases hf : s.flag with
      | true => exact ⟨_, Step.loopExit s hw hl hf⟩
      | false => exact ⟨_, Step.loopWait s hw hl hf⟩
  | wBlocked =>
      -- the signaler must be able to move
      have hnotW : s.lock ≠ some .W := by
        intro hlk
        have := c1.mp hlk
        simp_all [wHolds]
      have hnotNone : ¬ s.spc = .sNone := by
        intro hspc
        have := c3.mp hspc
        simp_all [preSpawn]
      have hnotPost : postNotify s.spc = false := by
        cases hpn : postNotify s.spc with
        | false => rfl
        | true => exact absurd hw (c9 hpn)
      cases hspc : s.spc with
      | sNone => exact absurd hspc hnotNone
      | sLockWait =>
          have hl : s.lock = none := by
            cases hlk : s.lock with
            | none => rfl
            | some tid =>
                cases tid with
                | W => exact absurd hlk hnotW
                | S =>
                    have := c2.mp hlk
                    simp_all [sHolds]
          exact ⟨_, Step.lockS s hspc hl⟩
      | sSetFlag =>
          exact ⟨_, Step.setFlag s hspc (c2.mpr (by simp [hspc, sHolds]))⟩
      | sSleep =>
          exact ⟨_, Step.sleep s hspc (c2.mpr (by simp [hspc, sHolds]))⟩
      | sNotify =>
          exact ⟨_, Step.notifyOne s hspc (c2.mpr (by simp [hspc, sHolds]))⟩
      | sUnlock => simp_all [postNotify]
      | sDone => simp_all [postNotify]
  | wWoken =>
      have hpn : postNotify s.spc = true := c10 rfl hw
      cases hspc : s.spc with
      | sUnlock =>
          exact ⟨_, Step.unlockS s hspc (c2.mpr (by simp [hspc, sHolds]))⟩
      | sDone =>
          have hl : s.lock = none := by
            cases hlk : s.lock with
            | none => rfl
            | some tid =>
                cases tid with
                | W =>
                    have := c1.mp hlk
                    simp_all [wHolds]
                | S =>
                    have := c2.mp hlk
                    simp_all [sHolds]
          exact ⟨_, Step.reacquire s hw hl⟩
      | sNone => simp_all [postNotify]
      | sLockWait => simp_all [postNotify]
      | sSetFlag => simp_all [postNotify]
      | sSleep => simp_all [postNotify]
      | sNotify => simp_all [postNotify]
  | wExit =>
      exact ⟨_, Step.computeElapsed s hw (c1.mpr (by simp [hw, wHolds]))⟩
  | wElapsed =>
      exact ⟨_, Step.dropGuard s hw (c1.mpr (by simp [hw, wHolds]))⟩
  | wDone => exact absurd hw hnd

/-! ### The canonical execution

The interleaving in which the waiter runs up to its first `wait`, then the
signaler runs to completion, then the waiter finishes.  It witnesses that
the final state is reachable for every delay. -/

def st1 : St :=
  { wpc := .wStart, spc := .sNone, lock := none, flag := false,
    start := some 0, time := 0, elapsed := none }

def st2 : St :=
  { wpc := .wLocked, spc := .sNone, lock := some .W, flag := false,
    start := some 0, time := 0, elapsed := none }

def st3 : St :=
  { wpc := .wLoop, spc := .sLockWait, lock := some .W, flag := false,
    start := some 0, time := 0, elapsed := none }

def st4 : St :=
  { wpc := .wBlocked, spc := .sLockWait, lock := none, flag := false,
    start := some 0, time := 0, elapsed := none }

def st5 : St :=
  { wpc := .wBlocked, spc := .sSetFlag, lock := some .S, flag := false,
    start := some 0, time := 0, elapsed := none }

def st6 : St :=
  { wpc := .wBlocked, spc := .sSleep, lock := some .S, flag := true,
    start := some 0, time := 0, elapsed := none }

def st7 (d : Nat) : St :=
  { wpc := .wBlocked, spc := .sNotify, lock := some .S, flag := true,
    start := some 0, time := d, elapsed := none }

def st8 (d : Nat) : St :=
  { wpc := .wWoken, spc := .sUnlock, lock := some .S, flag := true,
    start := some 0, time := d, elapsed := none }

def st9 (d : Nat) : St :=
  { wpc := .wWoken, spc := .sDone, lock := none, flag := true,
    start := some 0, time := d, elapsed := none }

def st10 (d : Nat) : St :=
  { wpc := .wLoop, spc := .sDone, lock := some .W, flag := true,
    start := some 0, time := d, elapsed := none }

def st11 (d : Nat) : St :=
  { wpc := .wExit, spc := .sDone, lock := some .W, flag := true,
    start := some 0, time := d, elapsed := none }

def st12 (d : Nat) : St :=
  { wpc := .wElapsed, spc := .sDone, lock := some .W, flag := true,
    start := some 0, time := d, elapsed := some d }

/-- The state in which `handle_event d` has returned. -/
def finalSt (d : Nat) : St :=
  { wpc := .wDone, spc := .sDone, lock := none, flag := true,
    start := some 0, time := d, elapsed := some d }

theorem reach_st1 (spur : Bool) (d : Nat) : Reachable spur d st1 :=
  Relation.ReflTransGen.single (Step.recordStart stInit rfl)

theorem reach_st2 (spur : Bool) (d : Nat) : Reachable spur d st2 :=
  (reach_st1 spur d).tail (Step.lockW st1 rfl rfl)

theorem reach_st3 (spur : Bool) (d : Nat) : Reachable spur d st3 :=
  (reach_st2 spur d).tail (Step.spawnS st2 rfl)

theorem reach_st4 (spur : Bool) (d : Nat) : Reachable spur d st4 :=
  (reach_st3 spur d).tail (Step.loopWait st3 rfl rfl rfl)

theorem reach_st5 (spur : Bool) (d : Nat) : Reachable spur d st5 :=
  (reach_st4 spur d).tail (Step.lockS st4 rfl rfl)

theorem reach_st6 (spur : Bool) (d : Nat) : Reachable spur d st6 :=
  (reach_st5 spur d).tail (Step.setFlag st5 rfl rfl)

theorem step_sleep (spur : Bool) (d : Nat) : Step spur d st6 (st7 d) := by
  have h : st7 d = { st6 with time := st6.time + d, spc := .sNotify } := by
    simp [st6, st7]
  rw [h]
  exact Step.sleep st6 rfl rfl

theorem reach_st7 (spur : Bool) (d : Nat) : Reachable spur d (st7 d) :=
  (reach_st6 spur d).tail (step_sleep spur d)

theorem reach_st8 (spur : Bool) (d : Nat) : Reachable spur d (st8 d) :=
  (reach_st7 spur d).tail (Step.notifyOne (st7 d) rfl rfl)

theorem reach_st9 (spur : Bool) (d : Nat) : Reachable spur d (st9 d) :=
  (reach_st8 spur d).tail (Step.unlockS (st8 d) rfl rfl)

theorem reach_st10 (spur : Bool) (d : Nat) : Reachable spur d (st10 d) :=
  (reach_st9 spur d).tail (Step.reacquire (st9 d) rfl rfl)

theorem reach_st11 (spur : Bool) (d : Nat) : Reachable spur d (st11 d) :=
  (reach_st10 spur d).tail (Step.loopExit (st10 d) rfl rfl rfl)

theorem reach_st12 (spur : Bool) (d : Nat) : Reachable spur d (st12 d) :=
  (reach_st11 spur d).tail (Step.computeElapsed (st11 d) rfl rfl)

theorem reach_final (spur : Bool) (d : Nat) : Reachable spur d (finalSt d) :=
  (reach_st12 spur d).tail (Step.dropGuard (st12 d) rfl rfl)

/-! ### Statement-level embedding

Textual order of the statements of `handle_event` and of the spawned
closure, copied from the source. -/

/-- The statements of `handle_event`, in source order.  `joinTask` is the
statement `handle.join()` that does NOT occur in the source (the
`JoinHandle` returned by `spawn` is discarded); it is listed as a possible
instruction so that its absence is expressible. -/
inductive WInstr : Type
  | mkSharedPair
  | clonePair
  | recordStart
  | lockMutex
  | spawnTask
  | waitLoop
  | computeElapsed
  | dropGuard
  | returnElapsed
  | joinTask
deriving DecidableEq, Repr

/-- Source order of the statements of `handle_event`:
`let pair = Arc::new(...)`; `let pair_ = Arc::clone(&pair)`;
`let start = Instant::now()`; `let mut guard = mutex.lock().unwrap()`;
`spawn(move || ...)`; `while !*guard { guard = cond.wait(guard).unwrap() }`;
`let elapsed = start.elapsed()`; `drop(guard)`; `elapsed`. -/
def waiterProgram : List WInstr :=
  [.mkSharedPair, .clonePair, .recordStart, .lockMutex, .spawnTask,
   .waitLoop, .computeElapsed, .dropGuard, .returnElapsed]

/-- The statements of the spawned closure, in source order. -/
inductive SInstr : Type
  | lockMutex
  | setFlag
  | sleepDelay
  | notifyOne
  | unlockScopeExit
deriving DecidableEq, Repr

/-- Source order of the statements of the spawned closure:
`let mut guard = mutex_.lock().unwrap()`; `*guard = true`;
`thread::sleep(duration)`; `cond_.notify_one()`; guard dropped at the
closing brace. -/
def signalerBody : List SInstr :=
  [.lockMutex, .setFlag, .sleepDelay, .notifyOne, .unlockScopeExit]

/-- Which notify primitive the signaler uses: `one` is `notify_one`
(single-target), `all` is `notify_all` (broadcast). -/
inductive NotifyKind : Type
  | one
  | all
deriving DecidableEq, Repr

/-- The source calls `cond_.notify_one()`. -/
def signalerNotifyKind : NotifyKind := .one

/-! ### Lock poisoning and panics

`Mutex::lock` and `Condvar::wait` return `LockResult` = `Result<_,
PoisonError<_>>`; the source calls `.unwrap()` on both, which panics on a
poisoned lock.  We model a panic as an abnormal result distinct from the
returned `Duration`. -/

/-- The error carried by `LockResult` when the lock is poisoned. -/
inductive PoisonError : Type
  | poisoned
deriving DecidableEq, Repr

/-- Outcome of a Rust computation that either returns a value of type `α`
or panics. -/
inductive PanicOr (α : Type) : Type
  | panicked (e : PoisonError)
  | ok (a : α)
deriving DecidableEq, Repr

/-- `.unwrap()` on a `LockResult`: returns the value or panics. -/
def unwrap {α : Type} : Except PoisonError α → PanicOr α
  | .error e => .panicked e
  | .ok a => .ok a

/-- `mutex.lock()`: returns `Err(PoisonError)` exactly when the lock is
poisoned. -/
def mutexLock (poisoned : Bool) : Except PoisonError Unit :=
  if poisoned then .error .poisoned else .ok ()

/-- `cond.wait(guard)`: returns `Err(PoisonError)` exactly when the lock is
poisoned on reacquisition. -/
def condvarWait (poisoned : Bool) : Except PoisonError Unit :=
  if poisoned then .error .poisoned else .ok ()

/-- The unwrap structure of the waiter's path through `handle_event`:
`mutex.lock().unwrap()`, then (the flag is false at the first check, as
proved of the operational model) `cond.wait(guard).unwrap()` inside the
loop, then the elapsed duration is returned as a plain value.  The success
value is the elapsed time the operational model establishes
(`Inv`: a done state carries `elapsed = some d`). -/
def handle_event_poison (lockPoisoned waitPoisoned : Bool) (d : Nat) :
    PanicOr Nat :=
  match unwrap (mutexLock lockPoisoned) with
  | .panicked e => .panicked e
  | .ok _ =>
      match unwrap (condvarWait waitPoisoned) with
      | .panicked e => .panicked e
      | .ok _ => .ok d

/-! ### `main` and `Duration` -/

/-- `Duration::from_secs`, in nanoseconds. -/
def durationFromSecs (n : Nat) : Nat := n * 1000000000

/-- `Duration::as_secs`: whole seconds, truncating. -/
def durationAsSecs (e : Nat) : Nat := e / 1000000000

/-- `main` passes `Duration::from_secs(1)` to `handle_event`. -/
def mainDelay : Nat := durationFromSecs 1

/-- The line `main` prints:
`println!("{} seconds elapsed before event triggered", ...as_secs())`. -/
def mainLine (elapsed : Nat) : String :=
  toString (durationAsSecs elapsed) ++ " seconds elapsed before event triggered"

/-! ### The claims -/

/-- Claim C1: for every non-negative delay `d`, `handle_event d` returns
(the model without spurious wakeups admits no infinite execution, and every
reachable non-final state has an enabled step), and in any model (with or
without spurious wakeups) a state in which `handle_event` has returned
carries an elapsed duration `e` with `e ≥ d`. -/
theorem handle_event_terminates_elapsed_ge_delay (d : Nat) :
    (∀ f : Nat → St, f 0 = stInit →
      (∀ n, Step false d (f n) (f (n + 1))) → False) ∧
    (∀ s, Reachable false d s → s.wpc ≠ .wDone → ∃ t, Step false d s t) ∧
    (∀ spur s, Reachable spur d s → s.wpc = .wDone →
      ∃ e, s.elapsed = some e ∧ d ≤ e) := by
  refine ⟨fun f h0 hs => no_infinite_run h0 hs,
    fun s hr hnd => progress hr hnd, ?_⟩
  intro spur s hr hdone
  obtain ⟨-, -, -, -, -, -, c7, -, -, -⟩ := reachable_inv hr
  refine ⟨d, ?_, le_refl d⟩
  rw [c7]
  simp [hdone, elapsedSet]

/-- Witness for C1 at `d = 250`: the final state of the canonical execution
has elapsed exactly `250 ≥ 250`. -/
theorem handle_event_terminates_elapsed_ge_delay_check :
    ∃ e, (finalSt 250).elapsed = some e ∧ 250 ≤ e :=
  (handle_event_terminates_elapsed_ge_delay 250).2.2 false (finalSt 250)
    (reach_final false 250) rfl

/-- Claim C2: the waiter locks the mutex before spawning the signaler
(source order), the signaler gets past its `lock` only when the mutex is
free, whenever the signaler holds the lock the waiter has already released
it inside `wait` (it is blocked or woken), in the model without spurious
wakeups `notify_one` only ever executes while the waiter is blocked in
`wait`, and after the notify the waiter is never blocked again — no wakeup
is lost. -/
theorem lock_before_spawn_prevents_lost_wakeup (spur : Bool) (d : Nat) :
    (waiterProgram.indexOf .lockMutex < waiterProgram.indexOf .spawnTask) ∧
    (∀ s t, Step spur d s t → s.spc = .sLockWait → t.spc = .sSetFlag →
      s.lock = none) ∧
    (∀ s, Reachable spur d s → sHolds s.spc = true →
      s.wpc = .wBlocked ∨ s.wpc = .wWoken) ∧
    (∀ s, Reachable false d s → s.spc = .sNotify → s.wpc = .wBlocked) ∧
    (∀ s, Reachable spur d s → postNotify s.spc = true →
      s.wpc ≠ .wBlocked) := by
  refine ⟨by decide, ?_, ?_, ?_, ?_⟩
  · intro s t hst h1 h2
    cases hst <;> simp_all
  · intro s hr hsh
    obtain ⟨c1, c2, c3, c4, c5, c6, c7, c8, c9, c10⟩ := reachable_inv hr
    have hlS : s.lock = some .S := c2.mpr hsh
    cases hwpc : s.wpc <;>
      simp_all [wHolds, preSpawn, pastLoop, sHolds]
  · intro s hr hspc
    obtain ⟨c1, c2, c3, c4, c5, c6, c7, c8, c9, c10⟩ := reachable_inv hr
    have hlS : s.lock = some .S := c2.mpr (by simp [hspc, sHolds])
    cases hwpc : s.wpc <;>
      simp_all [wHolds, preSpawn, pastLoop, sHolds, postNotify]
  · intro s hr hpn
    obtain ⟨-, -, -, -, -, -, -, -, c9, -⟩ := reachable_inv hr
    exact c9 hpn

/-- Witness for C2: in the canonical execution, when the signaler holds the
lock right before `*guard = true`, the waiter is blocked in `wait`. -/
theorem lock_before_spawn_prevents_lost_wakeup_check :
    st5.wpc = .wBlocked ∨ st5.wpc = .wWoken :=
  (lock_before_spawn_prevents_lost_wakeup false 3).2.2.1 st5
    (reach_st5 false 3) rfl

/-- Claim C3: the spawned closure performs, in source order: lock, set the
flag, sleep for the delay, `notify_one` (single-target, not broadcast),
release the lock at scope exit; operationally each of its transitions does
exactly that, the flag-set precedes the notify and the notify precedes the
release (the program-counter chain), and the notify wakes at most the one
blocked waiter. -/
theorem signaler_sequence (spur : Bool) (d : Nat) :
    (signalerNotifyKind = NotifyKind.one) ∧
    (signalerBody.indexOf .lockMutex < signalerBody.indexOf .setFlag ∧
     signalerBody.indexOf .setFlag < signalerBody.indexOf .sleepDelay ∧
     signalerBody.indexOf .sleepDelay < signalerBody.indexOf .notifyOne ∧
     signalerBody.indexOf .notifyOne <
       signalerBody.indexOf .unlockScopeExit) ∧
    (∀ s t, Reachable spur d s → Step spur d s t → s.spc = .sLockWait →
      t.spc ≠ .sLockWait → t.spc = .sSetFlag ∧ t.lock = some .S) ∧
    (∀ s t, Reachable spur d s → Step spur d s t → s.spc = .sSetFlag →
      t.spc ≠ .sSetFlag → t.spc = .sSleep ∧ t.flag = true ∧
      s.lock = some .S) ∧
    (∀ s t, Reachable spur d s → Step spur d s t → s.spc = .sSleep →
      t.spc ≠ .sSleep → t.spc = .sNotify ∧ t.time = s.time + d) ∧
    (∀ s t, Reachable spur d s → Step spur d s t → s.spc = .sNotify →
      t.spc ≠ .sNotify → t.spc = .sUnlock ∧ t.flag = s.flag ∧
      (s.wpc = .wBlocked → t.wpc = .wWoken) ∧
      (s.wpc ≠ .wBlocked → t.wpc = s.wpc)) ∧
    (∀ s t, Reachable spur d s → Step spur d s t → s.spc = .sUnlock →
      t.spc ≠ .sUnlock → t.spc = .sDone ∧ t.lock = none) := by
  refine ⟨rfl, by decide, ?_, ?_, ?_, ?_, ?_⟩
  · intro s t hr hst h1 h2
    obtain ⟨-, -, c3, -, -, -, -, -, -, -⟩ := reachable_inv hr
    cases hst <;> simp_all [preSpawn]
  · intro s t hr hst h1 h2
    obtain ⟨-, -, c3, -, -, -, -, -, -, -⟩ := reachable_inv hr
    cases hst <;> simp_all [preSpawn]
  · intro s t hr hst h1 h2
    obtain ⟨-, -, c3, -, -, -, -, -, -, -⟩ := reachable_inv hr
    cases hst <;> simp_all [preSpawn]
  · intro s t hr hst h1 h2
    obtain ⟨-, -, c3, -, -, -, -, -, -, -⟩ := reachable_inv hr
    cases hst <;> simp_all [preSpawn]
  · intro s t hr hst h1 h2
    obtain ⟨-, -, c3, -, -, -, -, -, -, -⟩ := reachable_inv hr
    cases hst <;> simp_all [preSpawn]

/-- Witness for C3: the `*guard = true` transition of the canonical
execution sets the flag, moves to the sleep, and is taken while the
signaler holds the lock. -/
theorem signaler_sequence_check :
    st6.spc = .sSleep ∧ st6.flag = true ∧ st5.lock = some .S :=
  (signaler_sequence false 3).2.2.2.1 st5 st6 (reach_st5 false 3)
    (Step.setFlag st5 rfl rfl) rfl (by decide)

/-- Claim C4: the waiter never gets past the wait loop while the flag is
false (so a spurious wakeup cannot cause a premature return); from the loop
head with the flag false the only move is into `wait`, which releases the
lock; and `wait` reacquires the lock before returning to the loop head. -/
theorem wait_loop_rechecks_flag (spur : Bool) (d : Nat) :
    (∀ s, Reachable spur d s → pastLoop s.wpc = true → s.flag = true) ∧
    (∀ s t, Step spur d s t → s.wpc = .wLoop → s.flag = false →
      t.wpc = .wLoop ∨ (t.wpc = .wBlocked ∧ t.lock = none)) ∧
    (∀ s t, Step spur d s t → s.wpc = .wWoken → t.wpc = .wLoop →
      t.lock = some .W) := by
  refine ⟨?_, ?_, ?_⟩
  · intro s hr hpl
    obtain ⟨-, -, -, c4, -, -, -, c8, -, -⟩ := reachable_inv hr
    rw [c4, c8 hpl]
    rfl
  · intro s t hst h1 h2
    cases hst <;> simp_all
  · intro s t hst h1 h2
    cases hst <;> simp_all

/-- Witness for C4: in the canonical execution the state just past the loop
has the flag set. -/
theorem wait_loop_rechecks_flag_check : (st11 3).flag = true :=
  (wait_loop_rechecks_flag false 3).1 (st11 3) (reach_st11 false 3) rfl

/-- Claim C5 as stated is false: in the source, `let start = Instant::now()`
precedes `let mut guard = mutex.lock().unwrap()`, so the start timestamp is
NOT recorded after acquiring the lock. -/
theorem start_after_lock_refuted :
    ¬ (waiterProgram.indexOf .lockMutex < waiterProgram.indexOf .recordStart ∧
       waiterProgram.indexOf .recordStart <
         waiterProgram.indexOf .spawnTask) := by
  decide

/-- Claim C5, amended: `handle_event` records the start timestamp BEFORE
acquiring the lock, and acquires the lock before spawning the second task;
consequently whenever the waiter holds the lock the start timestamp is
already recorded. -/
theorem start_recorded_before_lock_and_spawn (spur : Bool) (d : Nat) :
    (waiterProgram.indexOf .recordStart < waiterProgram.indexOf .lockMutex ∧
     waiterProgram.indexOf .lockMutex < waiterProgram.indexOf .spawnTask) ∧
    (∀ s, Reachable spur d s → s.lock = some .W → s.start = some 0) := by
  refine ⟨by decide, ?_⟩
  intro s hr hl
  obtain ⟨c1, -, -, -, c5, -, -, -, -, -⟩ := reachable_inv hr
  have hw := c1.mp hl
  have hne : s.wpc ≠ .wInit := by
    cases hwpc : s.wpc <;> simp_all [wHolds]
  rw [c5]
  simp [hne]

/-- Witness for the amended C5: right after the waiter takes the lock in the
canonical execution, the start timestamp is recorded. -/
theorem start_recorded_before_lock_and_spawn_check : st2.start = some 0 :=
  (start_recorded_before_lock_and_spawn false 3).2 st2 (reach_st2 false 3) rfl

/-- Claim C6: the shared flag starts out false; the only transition that
changes it is the signaler's `*guard = true`, taken while the signaler
holds the lock; the waiter's loop check (the only place it reads the flag)
executes while the waiter holds the lock; and the write site always holds
the lock in every reachable state. -/
theorem flag_lock_protocol (spur : Bool) (d : Nat) :
    stInit.flag = false ∧
    (∀ s t, Step spur d s t → t.flag ≠ s.flag →
      s.lock = some .S ∧ s.spc = .sSetFlag ∧ t.flag = true) ∧
    (∀ s t, Step spur d s t → s.wpc = .wLoop → t.wpc ≠ .wLoop →
      s.lock = some .W) ∧
    (∀ s, Reachable spur d s → s.spc = .sSetFlag → s.lock = some .S) := by
  refine ⟨rfl, ?_, ?_, ?_⟩
  · intro s t hst hne
    cases hst <;> simp_all
  · intro s t hst h1 h2
    cases hst <;> simp_all
  · intro s hr hspc
    obtain ⟨-, c2, -, -, -, -, -, -, -, -⟩ := reachable_inv hr
    exact c2.mpr (by simp [hspc, sHolds])

/-- Witness for C6: the flag-setting transition of the canonical execution
is the signaler's write, taken under its lock. -/
theorem flag_lock_protocol_check :
    st5.lock = some .S ∧ st5.spc = .sSetFlag ∧ st6.flag = true :=
  (flag_lock_protocol false 3).2.1 st5 st6 (Step.setFlag st5 rfl rfl)
    (by decide)

/-- Claim C7: `handle_event` returns a plain duration (no error result) when
no lock is poisoned, and a poisoned lock — on `mutex.lock().unwrap()` or on
`cond.wait(guard).unwrap()` — propagates immediately as a panic, with no
recovery or retry path. -/
theorem poison_panics_no_recovery (d : Nat) :
    (handle_event_poison false false d = .ok d) ∧
    (∀ w, handle_event_poison true w d = .panicked .poisoned) ∧
    (handle_event_poison false true d = .panicked .poisoned) :=
  ⟨rfl, fun _ => rfl, rfl⟩

/-- Claim C8: `main` invokes the handshake with `Duration::from_secs(1)`
and prints the elapsed whole seconds; in any model every returned state
reports exactly `1` whole second, and the printed line is
`1 seconds elapsed before event triggered`. -/
theorem main_reports_one_second :
    mainDelay = durationFromSecs 1 ∧
    (∀ spur s, Reachable spur mainDelay s → s.wpc = .wDone →
      ∃ e, s.elapsed = some e ∧ durationAsSecs e = 1 ∧
        mainLine e = "1 seconds elapsed before event triggered") := by
  refine ⟨rfl, ?_⟩
  intro spur s hr hdone
  obtain ⟨-, -, -, -, -, -, c7, -, -, -⟩ := reachable_inv hr
  refine ⟨mainDelay, ?_, by decide, by decide⟩
  rw [c7]
  simp [hdone, elapsedSet]

/-- Witness for C8: the final state of the canonical execution at delay
`Duration::from_secs(1)` reports one whole second. -/
theorem main_reports_one_second_check :
    ∃ e, (finalSt mainDelay).elapsed = some e ∧ durationAsSecs e = 1 ∧
      mainLine e = "1 seconds elapsed before event triggered" :=
  main_reports_one_second.2 false (finalSt mainDelay)
    (reach_final false mainDelay) rfl

/-- Claim C9: each call starts from a freshly constructed shared state
(flag false, lock free, nothing spawned or recorded); the spawn transition
is the only way out of the unspawned state and happens at the waiter's
post-lock program point; once spawned the signaler never returns to the
unspawned state; its terminal state is absorbing; and the transition into
the terminal state is the scope-exit unlock, which leaves the lock free. -/
theorem fresh_state_single_spawn (spur : Bool) (d : Nat) :
    (stInit.flag = false ∧ stInit.lock = none ∧ stInit.spc = .sNone ∧
     stInit.start = none ∧ stInit.elapsed = none) ∧
    (∀ s t, Step spur d s t → s.spc = .sNone →
      t.spc = .sNone ∨ (t.spc = .sLockWait ∧ s.wpc = .wLocked)) ∧
    (∀ s t, Step spur d s t → s.spc ≠ .sNone → t.spc ≠ .sNone) ∧
    (∀ s t, Reachable spur d s → Step spur d s t → s.spc = .sDone →
      t.spc = .sDone) ∧
    (∀ s t, Step spur d s t → t.spc = .sDone → s.spc ≠ .sDone →
      s.spc = .sUnlock ∧ t.lock = none) := by
  refine ⟨⟨rfl, rfl, rfl, rfl, rfl⟩, ?_, ?_, ?_, ?_⟩
  · intro s t hst h1
    cases hst <;> simp_all
  · intro s t hst h1
    cases hst <;> simp_all
  · intro s t hr hst h1
    obtain ⟨-, -, c3, -, -, -, -, -, -, -⟩ := reachable_inv hr
    cases hst <;> simp_all [preSpawn]
  · intro s t hst h1 h2
    cases hst <;> simp_all

/-- Witness for C9: the spawn transition of the canonical execution leaves
the unspawned state exactly at the waiter's post-lock point. -/
theorem fresh_state_single_spawn_check :
    st3.spc = .sNone ∨ (st3.spc = .sLockWait ∧ st2.wpc = .wLocked) :=
  (fresh_state_single_spawn false 3).2.1 st2 st3 (Step.spawnS st2 rfl) rfl

/-- Claim C10: `handle_event` never joins the spawned thread — the
`join` statement is absent from its body; its only panic sources are the
poisoned-lock unwraps; and the waiter's final transitions (computing the
elapsed time and dropping the guard) are enabled regardless of the
signaler's program counter, i.e. returning does not synchronize with the
spawned thread's termination. -/
theorem no_join_detached_spawn (spur : Bool) (d : Nat) :
    WInstr.joinTask ∉ waiterProgram ∧
    (∀ l w e, handle_event_poison l w d = .panicked e →
      l = true ∨ w = true) ∧
    (∀ s, s.wpc = .wExit → s.lock = some .W →
      Step spur d s { s with elapsed := some (s.time - s.start.getD 0),
                             wpc := .wElapsed }) ∧
    (∀ s, s.wpc = .wElapsed → s.lock = some .W →
      Step spur d s { s with lock := none, wpc := .wDone }) := by
  refine ⟨by decide, ?_, ?_, ?_⟩
  · intro l w e h
    cases l <;> cases w <;>
      simp_all [handle_event_poison, unwrap, mutexLock, condvarWait]
  · intro s h hl
    exact Step.computeElapsed s h hl
  · intro s h hl
    exact Step.dropGuard s h hl

/-- Witness for C10: the guard-dropping transition is enabled at the
canonical pre-return state without any condition on the signaler. -/
theorem no_join_detached_spawn_check :
    Step false 3 (st12 3) { st12 3 with lock := none, wpc := .wDone } :=
  (no_join_detached_spawn false 3).2.2.2 (st12 3) rfl rfl

end Events
